/-
Verification of the FroniusPusher collector core against its specification.

The TypeScript sources are shallowly embedded in Lean 4:
  * JavaScript numbers are modelled as rationals (ℚ); `Math.round` is
    modelled as `jsRound x = ⌊x + 1/2⌋` (round half toward +∞, which is
    exact JS semantics on non-negative halves and on all inputs whose
    fractional part is not exactly one half below zero at -0).
  * `Date` timestamps are modelled as rational milliseconds since epoch
    (`Date.getTime()`); `new Date()` calls inside one method body are
    modelled by a single `now` parameter, as in the source they are taken
    within the same tick.
  * `null`/`undefined` fields are modelled with `Option`.
  * Asynchronous HTTP calls are modelled by passing the transport outcome
    as an explicit argument.
-/
import Mathlib

/-- JavaScript `Math.round`: round half toward positive infinity. -/
def jsRound (x : ℚ) : ℤ := ⌊x + 1/2⌋

/-! ## Energy integrator (src `energy-integrator.ts`, class `EnergyIntegrator`)

State: `totalIntegrated` (watt-hours), the last power sample and the last
update time.  The hardware-counter fields of the source class are not
modelled: no claim refers to them and they do not influence
`updatePower`/`getTotalWh`/`getTotalKwh`. -/

structure EnergyIntegrator where
  totalIntegrated : ℚ
  lastPower : Option ℚ
  lastUpdateTime : Option ℚ
  deriving Repr, DecidableEq

namespace EnergyIntegrator

/-- `new EnergyIntegrator()`. -/
def new : EnergyIntegrator := ⟨0, none, none⟩

/-- `updatePower(powerW, timestamp)`.  `powerW` is `number | null | undefined`
(absent modelled as `none`); `timestamp` is milliseconds.  The source
integrates the trapezoid whenever both `lastUpdateTime` and `lastPower`
are set, converting the millisecond delta to hours by dividing by
`1000 * 60 * 60`. -/
def updatePower (s : EnergyIntegrator) (powerW : Option ℚ) (timestamp : ℚ) :
    EnergyIntegrator :=
  match powerW with
  | none => s
  | some pw =>
    let s1 :=
      match s.lastUpdateTime, s.lastPower with
      | some t0, some p0 =>
        { s with totalIntegrated :=
            s.totalIntegrated + ((pw + p0) / 2) * ((timestamp - t0) / 3600000) }
      | _, _ => s
    { s1 with lastPower := some pw, lastUpdateTime := some timestamp }

/-- `getTotalWh()`. -/
def getTotalWh (s : EnergyIntegrator) : ℚ := s.totalIntegrated

/-- `getTotalKwh()`. -/
def getTotalKwh (s : EnergyIntegrator) : ℚ := s.totalIntegrated / 1000

/-- `reset()`. -/
def reset (_s : EnergyIntegrator) : EnergyIntegrator := ⟨0, none, none⟩

end EnergyIntegrator

/-! ## Bidirectional integrator (class `BidirectionalEnergyIntegrator`) -/

structure BidirectionalEnergyIntegrator where
  positiveIntegrator : EnergyIntegrator
  negativeIntegrator : EnergyIntegrator
  deriving Repr, DecidableEq

namespace BidirectionalEnergyIntegrator

/-- `new BidirectionalEnergyIntegrator()`. -/
def new : BidirectionalEnergyIntegrator := ⟨EnergyIntegrator.new, EnergyIntegrator.new⟩

/-- `updatePower(powerW, timestamp)`: positive samples feed the positive
sub-integrator with the negative one told `0` at the same timestamp;
negative samples feed the negative sub-integrator with `|powerW|`;
`0` feeds both with `0`. -/
def updatePower (s : BidirectionalEnergyIntegrator) (powerW : Option ℚ)
    (timestamp : ℚ) : BidirectionalEnergyIntegrator :=
  match powerW with
  | none => s
  | some pw =>
    if 0 < pw then
      ⟨s.positiveIntegrator.updatePower (some pw) timestamp,
       s.negativeIntegrator.updatePower (some 0) timestamp⟩
    else if pw < 0 then
      ⟨s.positiveIntegrator.updatePower (some 0) timestamp,
       s.negativeIntegrator.updatePower (some (-pw)) timestamp⟩
    else
      ⟨s.positiveIntegrator.updatePower (some 0) timestamp,
       s.negativeIntegrator.updatePower (some 0) timestamp⟩

/-- `getPositiveWh()`. -/
def getPositiveWh (s : BidirectionalEnergyIntegrator) : ℚ :=
  s.positiveIntegrator.getTotalWh

/-- `getNegativeWh()`. -/
def getNegativeWh (s : BidirectionalEnergyIntegrator) : ℚ :=
  s.negativeIntegrator.getTotalWh

/-- `getPositiveKwh()`. -/
def getPositiveKwh (s : BidirectionalEnergyIntegrator) : ℚ :=
  s.positiveIntegrator.getTotalKwh

/-- `getNegativeKwh()`. -/
def getNegativeKwh (s : BidirectionalEnergyIntegrator) : ℚ :=
  s.negativeIntegrator.getTotalKwh

end BidirectionalEnergyIntegrator

/-- Run a bidirectional integrator over a history of `(power, timestamp)`
samples, oldest first. -/
def runBidi (samples : List (Option ℚ × ℚ)) : BidirectionalEnergyIntegrator :=
  samples.foldl (fun s x => s.updatePower x.1 x.2) BidirectionalEnergyIntegrator.new

example :
    (EnergyIntegrator.new.updatePower (some 3600) 0 |>.updatePower (some 3600) 20000).totalIntegrated
      = 20 := by
  norm_num [EnergyIntegrator.updatePower, EnergyIntegrator.new]

example :
    ((EnergyIntegrator.new.updatePower (some 100) 0).updatePower none 2000
        |>.updatePower (some 100) 4000).totalIntegrated = 1/9 := by
  norm_num [EnergyIntegrator.updatePower, EnergyIntegrator.new]

/-! ## Inverter (src `inverter.ts`, class `Inverter`)

Only the state touched by the claims is modelled: identity fields, the
three integrators, the last power data, the last fetch time and the fault
fields.  `lastApiResponse` and the static capability probes are omitted
(no claim mentions them). -/

/-- `PowerData` as built by `fetchPowerFlow` (powers rounded to integer W). -/
structure PowerData where
  solarW : Option ℤ
  batteryW : Option ℤ
  gridW : Option ℤ
  batterySoC : Option ℚ
  timestamp : ℚ
  deriving Repr, DecidableEq

/-- The `Body.Data.Site` part of a `GetPowerFlowRealtimeData` response,
together with the first inverter's `SOC` and `DeviceStatus.StatusCode`. -/
structure PowerFlowSite where
  pPV : Option ℚ
  pAkku : Option ℚ
  pGrid : Option ℚ
  soc : Option ℚ
  statusCode : Option ℕ
  deriving Repr, DecidableEq

/-- Transport outcome of the `GetPowerFlowRealtimeData` GET: a transport
failure (timeout, refused, unreachable, HTTP error, network error — all
land in the same `catch` block of the source), a response without the
`Body.Data.Site` shape, or a parsed site block. -/
inductive FetchOutcome where
  | failure
  | emptyBody
  | success (site : PowerFlowSite)
  deriving Repr, DecidableEq

structure InverterState where
  ip : String
  serialNumber : String
  isMaster : Bool
  hostname : Option String
  hasBattery : Bool
  solarIntegrator : EnergyIntegrator
  batteryIntegrator : Option BidirectionalEnergyIntegrator
  gridIntegrator : Option BidirectionalEnergyIntegrator
  lastPowerData : Option PowerData
  lastDataFetch : Option ℚ
  faultCode : Option ℕ
  faultTimestamp : Option ℚ
  deriving Repr, DecidableEq

namespace Inverter

/-- The `Inverter` constructor: always a fresh solar integrator, a battery
integrator iff a battery record was fetched, a grid integrator iff the
device is master. -/
def mk (ip serialNumber : String) (isMaster : Bool) (hostname : Option String)
    (hasBattery : Bool) : InverterState :=
  { ip := ip
    serialNumber := serialNumber
    isMaster := isMaster
    hostname := hostname
    hasBattery := hasBattery
    solarIntegrator := EnergyIntegrator.new
    batteryIntegrator := if hasBattery then some BidirectionalEnergyIntegrator.new else none
    gridIntegrator := if isMaster then some BidirectionalEnergyIntegrator.new else none
    lastPowerData := none
    lastDataFetch := none
    faultCode := none
    faultTimestamp := none }

/-- `fetchPowerFlow()`.  The transport outcome is passed explicitly; `now`
stands for the `new Date()` calls inside the method body.  Returns the
updated inverter state and the `PowerData` (`null` on failure). -/
def fetchPowerFlow (s : InverterState) (outcome : FetchOutcome) (now : ℚ) :
    InverterState × Option PowerData :=
  match outcome with
  | .failure => (s, none)
  | .emptyBody => ({ s with lastDataFetch := some now }, none)
  | .success site =>
    let powerData : PowerData :=
      { solarW := site.pPV.map jsRound
        batteryW := site.pAkku.map jsRound
        gridW := site.pGrid.map jsRound
        batterySoC := site.soc
        timestamp := now }
    let solar1 :=
      match powerData.solarW with
      | some w => s.solarIntegrator.updatePower (some (w : ℚ)) now
      | none => s.solarIntegrator
    let battery1 :=
      match s.batteryIntegrator, powerData.batteryW with
      | some b, some w => some (b.updatePower (some (w : ℚ)) now)
      | b, _ => b
    let grid1 :=
      match s.gridIntegrator, powerData.gridW with
      | some g, some w => some (g.updatePower (some (w : ℚ)) now)
      | g, _ => g
    -- `if (statusCode && statusCode !== 7)`: JS truthiness makes a
    -- StatusCode of 0 (or an absent one) take the clearing branch.
    let fault : Option ℕ :=
      match site.statusCode with
      | some c => if c ≠ 0 ∧ c ≠ 7 then some c else none
      | none => none
    ({ s with
        lastDataFetch := some now
        lastPowerData := some powerData
        solarIntegrator := solar1
        batteryIntegrator := battery1
        gridIntegrator := grid1
        faultCode := fault
        faultTimestamp := if fault.isSome then some now else none },
     some powerData)

end Inverter

/-- The record returned by `Inverter.getEnergyData()` (interface `EnergyData`). -/
structure EnergyData where
  solarWh : ℚ
  batteryInWh : ℚ
  batteryOutWh : ℚ
  gridInWh : ℚ
  gridOutWh : ℚ
  deriving Repr, DecidableEq

/-- `getEnergyData()`: integrator readings converted back to watt-hours
(`getTotalKwh() * 1000` and so on).  `batteryInWh` is the battery's negative
(charge) accumulator, `batteryOutWh` the positive (discharge) one;
`gridInWh` positive (import), `gridOutWh` negative (export); absent
integrators read 0. -/
def Inverter.getEnergyData (s : InverterState) : EnergyData :=
  { solarWh := s.solarIntegrator.getTotalKwh * 1000
    batteryInWh :=
      match s.batteryIntegrator with
      | some b => b.getNegativeKwh * 1000
      | none => 0
    batteryOutWh :=
      match s.batteryIntegrator with
      | some b => b.getPositiveKwh * 1000
      | none => 0
    gridInWh :=
      match s.gridIntegrator with
      | some g => g.getPositiveKwh * 1000
      | none => 0
    gridOutWh :=
      match s.gridIntegrator with
      | some g => g.getNegativeKwh * 1000
      | none => 0 }

/-! ## Site (src `site.ts`, class `Site`) -/

/-- A device as returned by discovery and enriched by the capability
probes inside `scanForDevices` (`hasBattery` records whether
`fetchBatteryInfo` returned a battery record). -/
structure DiscoveredDevice where
  ip : String
  serialNumber : String
  isMaster : Bool
  hostname : Option String
  hasBattery : Bool
  deriving Repr, DecidableEq

/-- `Site.scanForDevices()`, restricted to its effect on the inverter map
(serial-keyed).  When discovery returns no devices the method logs and
leaves the map untouched; otherwise it clears the map
(`this.inverters.clear()`) and constructs a brand-new `Inverter` for every
discovered device. -/
def Site.scanForDevices (devices : List DiscoveredDevice)
    (inverters : List (String × InverterState)) : List (String × InverterState) :=
  if devices.isEmpty then inverters
  else
    devices.map fun d =>
      (d.serialNumber, Inverter.mk d.ip d.serialNumber d.isMaster d.hostname d.hasBattery)

/-- The record returned by `Site.getEnergyTotals()`. -/
structure EnergyTotals where
  solarWh : Option ℚ
  batteryInWh : Option ℚ
  batteryOutWh : Option ℚ
  gridInWh : Option ℚ
  gridOutWh : Option ℚ
  loadWh : Option ℚ
  deriving Repr, DecidableEq

/-- Accumulator of the `for` loop in `Site.getEnergyTotals()`. -/
structure TotalsAcc where
  solarWh : ℚ
  batteryInWh : ℚ
  batteryOutWh : ℚ
  gridInWh : ℚ
  gridOutWh : ℚ
  hasSolar : Bool
  hasBattery : Bool
  hasGrid : Bool
  deriving Repr, DecidableEq

/-- One iteration of the loop body of `Site.getEnergyTotals()`. -/
def totalsStep (acc : TotalsAcc) (inv : InverterState) : TotalsAcc :=
  let e := Inverter.getEnergyData inv
  let acc :=
    if 0 < e.solarWh then
      { acc with solarWh := acc.solarWh + e.solarWh, hasSolar := true }
    else acc
  let acc :=
    if 0 < e.batteryInWh ∨ 0 < e.batteryOutWh then
      { acc with
          batteryInWh := acc.batteryInWh + e.batteryInWh
          batteryOutWh := acc.batteryOutWh + e.batteryOutWh
          hasBattery := true }
    else acc
  if inv.isMaster ∧ (0 < e.gridInWh ∨ 0 < e.gridOutWh) then
    { acc with
        gridInWh := acc.gridInWh + e.gridInWh
        gridOutWh := acc.gridOutWh + e.gridOutWh
        hasGrid := true }
  else acc

/-- `Site.getEnergyTotals()`: all-null when there are no inverters;
otherwise totals are summed only over inverters whose corresponding
accumulators are strictly positive, and load is derived by energy
balance (clamped at 0) whenever any of the three quantities is present. -/
def Site.getEnergyTotals (inverters : List InverterState) : EnergyTotals :=
  if inverters.isEmpty then
    { solarWh := none, batteryInWh := none, batteryOutWh := none,
      gridInWh := none, gridOutWh := none, loadWh := none }
  else
    let acc := inverters.foldl totalsStep
      { solarWh := 0, batteryInWh := 0, batteryOutWh := 0, gridInWh := 0,
        gridOutWh := 0, hasSolar := false, hasBattery := false, hasGrid := false }
    let hasLoad := acc.hasSolar ∨ acc.hasGrid ∨ acc.hasBattery
    let loadWh :=
      max 0 (acc.solarWh + acc.gridInWh + acc.batteryOutWh - acc.gridOutWh - acc.batteryInWh)
    { solarWh := if acc.hasSolar then some acc.solarWh else none
      batteryInWh := if acc.hasBattery then some acc.batteryInWh else none
      batteryOutWh := if acc.hasBattery then some acc.batteryOutWh else none
      gridInWh := if acc.hasGrid then some acc.gridInWh else none
      gridOutWh := if acc.hasGrid then some acc.gridOutWh else none
      loadWh := if hasLoad then some loadWh else none }

/-! ## Minutely report generation (src `site.ts`, `generateFroniusMinutely`) -/

/-- One entry of the `lastEnergySnapshot` ledger (`total` key): cumulative
watt-hours per quantity. -/
structure EnergySnapshot where
  solarWh : ℚ
  batteryInWh : ℚ
  batteryOutWh : ℚ
  gridInWh : ℚ
  gridOutWh : ℚ
  loadWh : ℚ
  deriving Repr, DecidableEq

/-- The six integer interval fields of a `FroniusMinutely` record. -/
structure MinutelyDelta where
  solarWh : ℤ
  batteryInWh : ℤ
  batteryOutWh : ℤ
  gridInWh : ℤ
  gridOutWh : ℤ
  loadWh : ℤ
  deriving Repr, DecidableEq

/-- The ledger part of `Site.generateFroniusMinutely()`: gate on missing
data (`solarWh` and `gridInWh` both null), bootstrap the ledger on first
call, else report `round(current − last)` per quantity and advance the
ledger by the rounded delta (not the raw current). -/
def generateFroniusMinutely (totals : EnergyTotals)
    (ledger : Option EnergySnapshot) : Option EnergySnapshot × Option MinutelyDelta :=
  if totals.solarWh.isNone ∧ totals.gridInWh.isNone then (ledger, none)
  else
    let current : EnergySnapshot :=
      { solarWh := totals.solarWh.getD 0
        batteryInWh := totals.batteryInWh.getD 0
        batteryOutWh := totals.batteryOutWh.getD 0
        gridInWh := totals.gridInWh.getD 0
        gridOutWh := totals.gridOutWh.getD 0
        loadWh := totals.loadWh.getD 0 }
    match ledger with
    | none => (some current, none)
    | some last =>
      let delta : MinutelyDelta :=
        { solarWh := jsRound (current.solarWh - last.solarWh)
          batteryInWh := jsRound (current.batteryInWh - last.batteryInWh)
          batteryOutWh := jsRound (current.batteryOutWh - last.batteryOutWh)
          gridInWh := jsRound (current.gridInWh - last.gridInWh)
          gridOutWh := jsRound (current.gridOutWh - last.gridOutWh)
          loadWh := jsRound (current.loadWh - last.loadWh) }
      let next : EnergySnapshot :=
        { solarWh := last.solarWh + delta.solarWh
          batteryInWh := last.batteryInWh + delta.batteryInWh
          batteryOutWh := last.batteryOutWh + delta.batteryOutWh
          gridInWh := last.gridInWh + delta.gridInWh
          gridOutWh := last.gridOutWh + delta.gridOutWh
          loadWh := last.loadWh + delta.loadWh }
      (some next, some delta)

/-- A sequence of minutely ticks: feed each tick's energy totals to
`generateFroniusMinutely`, threading the ledger and collecting the
emitted reports in order. -/
def runMinutely (ledger : Option EnergySnapshot) :
    List EnergyTotals → Option EnergySnapshot × List MinutelyDelta
  | [] => (ledger, [])
  | t :: ts =>
    match generateFroniusMinutely t ledger with
    | (l1, none) => runMinutely l1 ts
    | (l1, some d) =>
      let r := runMinutely l1 ts
      (r.1, d :: r.2)

/-- `Site.sessionId`: `Date.now().toString()` — the decimal string of the
process-start epoch milliseconds. -/
def sessionIdOfStart (startMs : ℕ) : String := toString startMs

/-- The `sequence` field of a report: `` `${sessionId}/${sequenceNumber}` ``. -/
def mkSequence (sessionId : String) (n : ℕ) : String :=
  sessionId ++ "/" ++ toString n

/-- Minutely ticks again, now tracking `sequenceNumber` (incremented just
before each non-null report is assembled) and collecting each report's
`sequence` string.  Returns the final `sequenceNumber` and the sequence
strings in emission order. -/
def runSequences (sessionId : String) (seqNum : ℕ) (ledger : Option EnergySnapshot) :
    List EnergyTotals → ℕ × List String
  | [] => (seqNum, [])
  | t :: ts =>
    match generateFroniusMinutely t ledger with
    | (l1, none) => runSequences sessionId seqNum l1 ts
    | (l1, some _) =>
      let r := runSequences sessionId (seqNum + 1) l1 ts
      (r.1, mkSequence sessionId (seqNum + 1) :: r.2)

/-! ## Push client (src `liveone-push.ts`, class `LiveOnePushService`) -/

/-- `LiveOnePushConfig`. -/
structure LiveOnePushConfig where
  apiKey : Option String
  apiUrl : Option String
  enabled : Bool
  deriving Repr, DecidableEq

/-- Mutable state of `LiveOnePushService` relevant to the claims. -/
structure PushState where
  config : LiveOnePushConfig
  lastPushTimestamp : Option String
  deriving Repr, DecidableEq

/-- Outcome of the `axios.post`: with the default `validateStatus` the
promise resolves exactly for 2xx statuses (carrying `body.success`),
rejects with `error.response.status` for any other HTTP status, and
rejects without a response for network errors. -/
inductive PushOutcome where
  | resolved2xx (bodySuccess : Bool)
  | httpError (status : ℕ)
  | networkError
  deriving Repr, DecidableEq

/-- JS truthiness of an optional string (`null`, `undefined` and `""` are
falsy). -/
def strTruthy : Option String → Bool
  | none => false
  | some s => decide (s ≠ "")

/-- `pushFroniusMinutely(data)`.  `recTimestamp` is `data.timestamp`;
`outcome` is the transport result of the POST.  Returns the new service
state and whether a POST was issued at all (the guard
`!isEnabled() || !apiKey || !apiUrl` returns without posting). -/
def pushFroniusMinutely (s : PushState) (recTimestamp : String)
    (outcome : PushOutcome) : PushState × Bool :=
  if ¬ (s.config.enabled ∧ strTruthy s.config.apiKey ∧ strTruthy s.config.apiUrl) then
    (s, false)
  else
    match outcome with
    | .resolved2xx true => ({ s with lastPushTimestamp := some recTimestamp }, true)
    | .resolved2xx false => (s, true)
    | .httpError status =>
      if status = 401 ∨ status = 404 then
        ({ s with config := { s.config with enabled := false } }, true)
      else
        (s, true)
    | .networkError => (s, true)

/-! ## Claim C2 — trapezoidal integration conditions -/

/-- C2 counterexample: with a previous sample 20 seconds old — beyond the
claimed 10-second ceiling — `updatePower` still integrates the trapezoid
(here 3600 W sustained over 20 s adds 20 Wh), so the accumulator is not
left unchanged as the claim states for deltas above 10 s. -/
theorem updatePower_exceeds_ceiling_counterexample :
    ((EnergyIntegrator.new.updatePower (some 3600) 0).updatePower
        (some 3600) 20000).totalIntegrated
      = (EnergyIntegrator.new.updatePower (some 3600) 0).totalIntegrated + 20
    ∧ (20000 - 0 : ℚ) > 10 * 1000 := by
  constructor
  · norm_num [EnergyIntegrator.updatePower, EnergyIntegrator.new]
  · norm_num

/-- C2 amended: `updatePower(p, t)` with `p` present integrates the
trapezoid `(p+pPrev)/2 · (t−tPrev)` (milliseconds converted to hours)
into the accumulator exactly when a previous sample exists — with no
`t > tPrev` check and no 10-second ceiling, so zero, negative and
arbitrarily large deltas are integrated too; with no previous sample the
accumulator is unchanged; in both cases `(p, t)` becomes the new previous
sample. -/
theorem updatePower_integrates_without_time_guard (s : EnergyIntegrator) (pw t : ℚ) :
    (∀ p0 t0, s.lastPower = some p0 → s.lastUpdateTime = some t0 →
      (s.updatePower (some pw) t).totalIntegrated
        = s.totalIntegrated + ((pw + p0) / 2) * ((t - t0) / 3600000))
    ∧ (s.lastPower = none ∨ s.lastUpdateTime = none →
      (s.updatePower (some pw) t).totalIntegrated = s.totalIntegrated)
    ∧ (s.updatePower (some pw) t).lastPower = some pw
    ∧ (s.updatePower (some pw) t).lastUpdateTime = some t := by
  refine ⟨?_, ?_, ?_, ?_⟩
  · intro p0 t0 h1 h2
    simp [EnergyIntegrator.updatePower, h1, h2]
  · rintro (h | h)
    · cases hu : s.lastUpdateTime <;> simp [EnergyIntegrator.updatePower, h, hu]
    · simp [EnergyIntegrator.updatePower, h]
  · cases hu : s.lastUpdateTime <;> cases hp : s.lastPower <;>
      simp [EnergyIntegrator.updatePower, hu, hp]
  · cases hu : s.lastUpdateTime <;> cases hp : s.lastPower <;>
      simp [EnergyIntegrator.updatePower, hu, hp]

/-- Witness for C2 at a concrete state: previous sample (3600 W, t=0),
new sample (3600 W, t=20000 ms). -/
theorem updatePower_integrates_without_time_guard_witness :
    ((EnergyIntegrator.new.updatePower (some 3600) 0).updatePower
        (some 3600) 20000).totalIntegrated
      = (EnergyIntegrator.new.updatePower (some 3600) 0).totalIntegrated
        + ((3600 + 3600) / 2) * ((20000 - 0) / 3600000) :=
  (updatePower_integrates_without_time_guard
      (EnergyIntegrator.new.updatePower (some 3600) 0) 3600 20000).1 3600 0 rfl rfl

/-! ## Claim C7 — absent samples and the integration anchor -/

/-- C7 counterexample: a valid 100 W sample at t=0, an absent sample at
t=2000 ms, then a valid 100 W sample at t=4000 ms.  The claim says the
valid sample after the absent one is treated as a first sample (no
integration step); in fact it integrates the full trapezoid against the
t=0 anchor, adding 100 W · 4 s = 1/9 Wh. -/
theorem absent_sample_still_anchors_counterexample :
    (((EnergyIntegrator.new.updatePower (some 100) 0).updatePower none 2000).updatePower
        (some 100) 4000).totalIntegrated
      ≠ ((EnergyIntegrator.new.updatePower (some 100) 0).updatePower none 2000).totalIntegrated := by
  norm_num [EnergyIntegrator.updatePower, EnergyIntegrator.new]

/-- C7 amended: an absent (null/undefined) power sample leaves the whole
integrator state unchanged — accumulator AND last-sample state — so the
previous valid sample remains the anchor, and the next valid sample
integrates a trapezoid spanning the absent gap (it is NOT treated as a
first sample). -/
theorem updatePower_absent_preserves_anchor :
    (∀ (s : EnergyIntegrator) (t : ℚ), s.updatePower none t = s)
    ∧ ∀ (s : EnergyIntegrator) (p0 t0 pw t : ℚ) (gaps : List ℚ),
        s.lastPower = some p0 → s.lastUpdateTime = some t0 →
        ((gaps.foldl (fun st g => st.updatePower none g) s).updatePower
            (some pw) t).totalIntegrated
          = s.totalIntegrated + ((pw + p0) / 2) * ((t - t0) / 3600000) := by
  have habs : ∀ (s : EnergyIntegrator) (t : ℚ), s.updatePower none t = s := fun s t => rfl
  refine ⟨habs, ?_⟩
  intro s p0 t0 pw t gaps h1 h2
  have hfold : gaps.foldl (fun st g => st.updatePower none g) s = s := by
    induction gaps with
    | nil => rfl
    | cons g gs ih => simp [habs, ih]
  rw [hfold]
  simp [EnergyIntegrator.updatePower, h1, h2]

/-- Witness for C7 at a concrete state: valid sample (100 W, 0), two
absent samples, then a valid sample (100 W, 4000 ms). -/
theorem updatePower_absent_preserves_anchor_witness :
    (([2000, 3000].foldl (fun st g => st.updatePower none g)
        (EnergyIntegrator.new.updatePower (some 100) 0)).updatePower
        (some 100) 4000).totalIntegrated
      = (EnergyIntegrator.new.updatePower (some 100) 0).totalIntegrated
        + ((100 + 100) / 2) * ((4000 - 0) / 3600000) :=
  updatePower_absent_preserves_anchor.2
    (EnergyIntegrator.new.updatePower (some 100) 0) 100 0 100 4000 [2000, 3000] rfl rfl

/-! ## Claim C8 — transport failures and fault codes -/

/-- C8 counterexample: a transport-level failure of `fetchPowerFlow`
(timeout, refused, unreachable, HTTP error, network error all reach the
same `catch`, which only logs) leaves `faultCode` unset on a fault-free
inverter — it is NOT set from the error class — and returns no Sample. -/
theorem transport_failure_leaves_fault_unset_counterexample :
    (Inverter.fetchPowerFlow (Inverter.mk "192.168.1.50" "A1" true none false)
        .failure 1000).1.faultCode = none
    ∧ (Inverter.fetchPowerFlow (Inverter.mk "192.168.1.50" "A1" true none false)
        .failure 1000).2 = none :=
  ⟨rfl, rfl⟩

/-- C8 amended: on transport failure `fetchPowerFlow` returns no Sample
and leaves the inverter state — in particular `faultCode` and
`faultTimestamp` — entirely unchanged.  Fault codes are set only from a
device-reported `DeviceStatus.StatusCode` (present, nonzero and ≠ 7) on a
successful poll, and any successful poll with a normal status (absent, 0
or 7) clears them. -/
theorem fetchPowerFlow_transport_failure_no_fault (s : InverterState) (now : ℚ)
    (site : PowerFlowSite) :
    Inverter.fetchPowerFlow s .failure now = (s, none)
    ∧ (site.statusCode = none ∨ site.statusCode = some 0 ∨ site.statusCode = some 7 →
        (Inverter.fetchPowerFlow s (.success site) now).1.faultCode = none
        ∧ (Inverter.fetchPowerFlow s (.success site) now).1.faultTimestamp = none)
    ∧ (∀ c : ℕ, site.statusCode = some c → c ≠ 0 → c ≠ 7 →
        (Inverter.fetchPowerFlow s (.success site) now).1.faultCode = some c
        ∧ (Inverter.fetchPowerFlow s (.success site) now).1.faultTimestamp = some now) := by
  refine ⟨rfl, ?_, ?_⟩
  · rintro (h | h | h) <;> simp [Inverter.fetchPowerFlow, h]
  · intro c hc h0 h7
    simp [Inverter.fetchPowerFlow, hc, h0, h7]

/-- Witness for C8 at a concrete inverter: a failed poll changes nothing,
and a successful poll reporting StatusCode 3 raises fault code 3. -/
theorem fetchPowerFlow_transport_failure_no_fault_witness :
    Inverter.fetchPowerFlow (Inverter.mk "192.168.1.51" "B7" false none true)
        .failure 5 = (Inverter.mk "192.168.1.51" "B7" false none true, none)
    ∧ (Inverter.fetchPowerFlow (Inverter.mk "192.168.1.51" "B7" false none true)
        (.success ⟨some 250, none, none, none, some 3⟩) 5).1.faultCode = some 3 :=
  ⟨(fetchPowerFlow_transport_failure_no_fault
      (Inverter.mk "192.168.1.51" "B7" false none true) 5
      ⟨some 250, none, none, none, some 3⟩).1,
   ((fetchPowerFlow_transport_failure_no_fault
      (Inverter.mk "192.168.1.51" "B7" false none true) 5
      ⟨some 250, none, none, none, some 3⟩).2.2 3 rfl (by decide) (by decide)).1⟩

/-! ## Claim C9 — per-minute push outcomes -/

/-- C9: for a configured and enabled push client, `pushFroniusMinutely`
records `lastPushTimestamp` exactly on a 2xx response whose body has
`success: true`; HTTP 401 and 404 responses disable the client, after
which no POST is ever issued again; an HTTP 409 leaves the whole state
(enabled flag and `lastPushTimestamp`) unchanged. -/
theorem pushFroniusMinutely_outcomes (s : PushState) (ts : String)
    (outcome : PushOutcome)
    (hready : s.config.enabled ∧ strTruthy s.config.apiKey ∧ strTruthy s.config.apiUrl) :
    (pushFroniusMinutely s ts (.resolved2xx true)).1.lastPushTimestamp = some ts
    ∧ (outcome ≠ .resolved2xx true →
        (pushFroniusMinutely s ts outcome).1.lastPushTimestamp = s.lastPushTimestamp)
    ∧ (pushFroniusMinutely s ts (.httpError 401)).1.config.enabled = false
    ∧ (pushFroniusMinutely s ts (.httpError 404)).1.config.enabled = false
    ∧ pushFroniusMinutely s ts (.httpError 409) = (s, true)
    ∧ (∀ (s2 : PushState) (ts2 : String) (o2 : PushOutcome),
        s2.config.enabled = false → pushFroniusMinutely s2 ts2 o2 = (s2, false)) := by
  refine ⟨?_, ?_, ?_, ?_, ?_, ?_⟩
  · simp [pushFroniusMinutely, hready]
  · intro hne
    cases outcome with
    | resolved2xx b =>
      cases b with
      | true => exact absurd rfl hne
      | false => simp [pushFroniusMinutely, hready]
    | httpError status =>
      by_cases h4 : status = 401 ∨ status = 404 <;>
        simp [pushFroniusMinutely, hready, h4]
    | networkError => simp [pushFroniusMinutely, hready]
  · simp [pushFroniusMinutely, hready]
  · simp [pushFroniusMinutely, hready]
  · simp [pushFroniusMinutely, hready]
  · intro s2 ts2 o2 hdis
    simp [pushFroniusMinutely, hdis]

/-- Witness for C9 at a concrete configured client. -/
theorem pushFroniusMinutely_outcomes_witness :
    (pushFroniusMinutely
        ⟨⟨some "fr_abc", some "https://liveone.example/api/push/fronius", true⟩, none⟩
        "2025-09-13T14:30:00+10:00" (.resolved2xx true)).1.lastPushTimestamp
      = some "2025-09-13T14:30:00+10:00" :=
  (pushFroniusMinutely_outcomes
      ⟨⟨some "fr_abc", some "https://liveone.example/api/push/fronius", true⟩, none⟩
      "2025-09-13T14:30:00+10:00" (.resolved2xx true)
      ⟨rfl, by decide, by decide⟩).1

/-! ## Claim C1 — device adoption on rescan -/

/-- C1 counterexample: an inverter with serial `A1` and 5 Wh of
accumulated solar energy is present when a scan rediscovers the same
serial (at a new IP).  `scanForDevices` replaces it with a freshly
constructed `Inverter` whose solar accumulator is 0 Wh — the integrator
and accumulated energy are NOT kept. -/
theorem scanForDevices_drops_existing_integrator_counterexample :
    Site.scanForDevices [⟨"10.0.0.6", "A1", true, none, false⟩]
        [("A1", { Inverter.mk "10.0.0.5" "A1" true none false with
                    solarIntegrator := ⟨5, some 100, some 0⟩ })]
      = [("A1", Inverter.mk "10.0.0.6" "A1" true none false)]
    ∧ ({ Inverter.mk "10.0.0.5" "A1" true none false with
          solarIntegrator := ⟨5, some 100, some 0⟩ } :
        InverterState).solarIntegrator.totalIntegrated = 5
    ∧ (Inverter.mk "10.0.0.6" "A1" true none false).solarIntegrator.totalIntegrated = 0 :=
  ⟨rfl, rfl, rfl⟩

/-- C1 amended: `scanForDevices` is a wholesale replacement, not a merge.
When discovery returns at least one device, the previous inverter map is
cleared and every discovered device — whether or not its serial was
already present — gets a brand-new `Inverter` with fresh (zeroed)
integrators; consequently every serial in the result comes from the
discovered list (serials absent from it are removed).  When discovery
returns no devices the existing map is left entirely unchanged (nothing
is removed). -/
theorem scanForDevices_full_replacement (devices : List DiscoveredDevice)
    (inverters : List (String × InverterState)) :
    (devices = [] → Site.scanForDevices devices inverters = inverters)
    ∧ (devices ≠ [] →
        Site.scanForDevices devices inverters
          = devices.map (fun d =>
              (d.serialNumber, Inverter.mk d.ip d.serialNumber d.isMaster d.hostname d.hasBattery))
        ∧ ∀ p ∈ Site.scanForDevices devices inverters,
            p.2.solarIntegrator = EnergyIntegrator.new
            ∧ p.2.lastPowerData = none
            ∧ p.1 ∈ devices.map DiscoveredDevice.serialNumber) := by
  constructor
  · intro h
    simp [Site.scanForDevices, h]
  · intro h
    have hne : ¬ devices.isEmpty := by
      cases devices with
      | nil => exact absurd rfl h
      | cons d ds => simp
    have hscan : Site.scanForDevices devices inverters
        = devices.map (fun d =>
            (d.serialNumber, Inverter.mk d.ip d.serialNumber d.isMaster d.hostname d.hasBattery)) := by
      simp [Site.scanForDevices, hne]
    refine ⟨hscan, ?_⟩
    intro p hp
    rw [hscan, List.mem_map] at hp
    obtain ⟨d, hd, rfl⟩ := hp
    refine ⟨rfl, rfl, ?_⟩
    exact List.mem_map.2 ⟨d, hd, rfl⟩

/-- Witness for C1 at a concrete scan result. -/
theorem scanForDevices_full_replacement_witness :
    Site.scanForDevices [⟨"10.0.0.7", "B2", false, none, true⟩] []
      = [("B2", Inverter.mk "10.0.0.7" "B2" false none true)] :=
  ((scanForDevices_full_replacement [⟨"10.0.0.7", "B2", false, none, true⟩] []).2
      (by simp)).1

/-! ## Claim C3 — snapshot-ledger drift correction -/

/-- On an initialised ledger, `generateFroniusMinutely` either reports
nothing and leaves the ledger untouched (the no-data gate) or emits a
delta and advances the ledger by exactly that rounded delta in every
quantity. -/
theorem generateFroniusMinutely_advances (totals : EnergyTotals)
    (last : EnergySnapshot) :
    generateFroniusMinutely totals (some last) = (some last, none)
    ∨ ∃ next d, generateFroniusMinutely totals (some last) = (some next, some d)
        ∧ next.solarWh = last.solarWh + d.solarWh
        ∧ next.batteryInWh = last.batteryInWh + d.batteryInWh
        ∧ next.batteryOutWh = last.batteryOutWh + d.batteryOutWh
        ∧ next.gridInWh = last.gridInWh + d.gridInWh
        ∧ next.gridOutWh = last.gridOutWh + d.gridOutWh
        ∧ next.loadWh = last.loadWh + d.loadWh := by
  by_cases hg : totals.solarWh.isNone ∧ totals.gridInWh.isNone
  · left
    simp [generateFroniusMinutely, hg]
  · right
    unfold generateFroniusMinutely
    rw [if_neg hg]
    exact ⟨_, _, rfl, rfl, rfl, rfl, rfl, rfl, rfl⟩

/-- Whenever `generateFroniusMinutely` actually emits a delta, the new
ledger entry is the old one advanced by the rounded delta, in each of the
six quantities. -/
theorem generateFroniusMinutely_step (totals : EnergyTotals)
    (last next : EnergySnapshot) (d : MinutelyDelta)
    (h : generateFroniusMinutely totals (some last) = (some next, some d)) :
    next.solarWh = last.solarWh + (d.solarWh : ℚ)
    ∧ next.batteryInWh = last.batteryInWh + (d.batteryInWh : ℚ)
    ∧ next.batteryOutWh = last.batteryOutWh + (d.batteryOutWh : ℚ)
    ∧ next.gridInWh = last.gridInWh + (d.gridInWh : ℚ)
    ∧ next.gridOutWh = last.gridOutWh + (d.gridOutWh : ℚ)
    ∧ next.loadWh = last.loadWh + (d.loadWh : ℚ) := by
  rcases generateFroniusMinutely_advances totals last with h0 | ⟨n, dd, he, hfields⟩
  · rw [h0] at h
    simp at h
  · rw [he] at h
    simp only [Prod.mk.injEq, Option.some.injEq] at h
    obtain ⟨h1, h2⟩ := h
    subst h1; subst h2
    exact hfields

/-- Telescoping of one quantity over a run: a projection pair `(f, g)`
that `generateFroniusMinutely_step` relates sums to the ledger
movement. -/
theorem runMinutely_telescopes (f : EnergySnapshot → ℚ) (g : MinutelyDelta → ℤ)
    (hfg : ∀ totals last next d,
      generateFroniusMinutely totals (some last) = (some next, some d) →
      f next = f last + (g d : ℚ)) :
    ∀ (inputs : List EnergyTotals) (L : EnergySnapshot),
      ∃ F, (runMinutely (some L) inputs).1 = some F
        ∧ ((runMinutely (some L) inputs).2.map (fun d => (g d : ℚ))).sum = f F - f L := by
  intro inputs
  induction inputs with
  | nil =>
    intro L
    exact ⟨L, rfl, by simp [runMinutely]⟩
  | cons t ts ih =>
    intro L
    rcases generateFroniusMinutely_advances t L with h | ⟨next, d, h, hadv⟩
    · obtain ⟨F, hF, hsum⟩ := ih L
      refine ⟨F, ?_, ?_⟩
      · simp [runMinutely, h, hF]
      · simp [runMinutely, h, hsum]
    · obtain ⟨F, hF, hsum⟩ := ih next
      have hstep : f next = f L + (g d : ℚ) := hfg t L next d h
      refine ⟨F, ?_, ?_⟩
      · simp [runMinutely, h, hF]
      · simp only [runMinutely, h]
        simp [hsum, hstep]
        ring

/-- C3: for any initialised ledger and any sequence of minutely ticks,
the ledger stays initialised and, for each of the six quantities, the sum
of the reported integer deltas equals exactly the final ledger value
minus the initial ledger value — no drift, because the ledger advances by
the rounded delta rather than being replaced by the raw current. -/
theorem minutely_delta_sum_telescopes (L0 : EnergySnapshot)
    (inputs : List EnergyTotals) :
    ∃ F, (runMinutely (some L0) inputs).1 = some F
      ∧ ((runMinutely (some L0) inputs).2.map (fun d => (d.solarWh : ℚ))).sum
          = F.solarWh - L0.solarWh
      ∧ ((runMinutely (some L0) inputs).2.map (fun d => (d.batteryInWh : ℚ))).sum
          = F.batteryInWh - L0.batteryInWh
      ∧ ((runMinutely (some L0) inputs).2.map (fun d => (d.batteryOutWh : ℚ))).sum
          = F.batteryOutWh - L0.batteryOutWh
      ∧ ((runMinutely (some L0) inputs).2.map (fun d => (d.gridInWh : ℚ))).sum
          = F.gridInWh - L0.gridInWh
      ∧ ((runMinutely (some L0) inputs).2.map (fun d => (d.gridOutWh : ℚ))).sum
          = F.gridOutWh - L0.gridOutWh
      ∧ ((runMinutely (some L0) inputs).2.map (fun d => (d.loadWh : ℚ))).sum
          = F.loadWh - L0.loadWh := by
  obtain ⟨F1, hF1, hs1⟩ := runMinutely_telescopes EnergySnapshot.solarWh
    MinutelyDelta.solarWh
    (fun totals last next d h => (generateFroniusMinutely_step totals last next d h).1)
    inputs L0
  obtain ⟨F2, hF2, hs2⟩ := runMinutely_telescopes EnergySnapshot.batteryInWh
    MinutelyDelta.batteryInWh
    (fun totals last next d h => (generateFroniusMinutely_step totals last next d h).2.1)
    inputs L0
  obtain ⟨F3, hF3, hs3⟩ := runMinutely_telescopes EnergySnapshot.batteryOutWh
    MinutelyDelta.batteryOutWh
    (fun totals last next d h => (generateFroniusMinutely_step totals last next d h).2.2.1)
    inputs L0
  obtain ⟨F4, hF4, hs4⟩ := runMinutely_telescopes EnergySnapshot.gridInWh
    MinutelyDelta.gridInWh
    (fun totals last next d h => (generateFroniusMinutely_step totals last next d h).2.2.2.1)
    inputs L0
  obtain ⟨F5, hF5, hs5⟩ := runMinutely_telescopes EnergySnapshot.gridOutWh
    MinutelyDelta.gridOutWh
    (fun totals last next d h => (generateFroniusMinutely_step totals last next d h).2.2.2.2.1)
    inputs L0
  obtain ⟨F6, hF6, hs6⟩ := runMinutely_telescopes EnergySnapshot.loadWh
    MinutelyDelta.loadWh
    (fun totals last next d h => (generateFroniusMinutely_step totals last next d h).2.2.2.2.2)
    inputs L0
  have e2 : F2 = F1 := by rw [hF1] at hF2; exact (Option.some.inj hF2).symm
  have e3 : F3 = F1 := by rw [hF1] at hF3; exact (Option.some.inj hF3).symm
  have e4 : F4 = F1 := by rw [hF1] at hF4; exact (Option.some.inj hF4).symm
  have e5 : F5 = F1 := by rw [hF1] at hF5; exact (Option.some.inj hF5).symm
  have e6 : F6 = F1 := by rw [hF1] at hF6; exact (Option.some.inj hF6).symm
  rw [e2] at hs2; rw [e3] at hs3; rw [e4] at hs4; rw [e5] at hs5; rw [e6] at hs6
  exact ⟨F1, hF1, hs1, hs2, hs3, hs4, hs5, hs6⟩

/-! ## Claim C5 — sequence field format -/

/-- C5 counterexample: `Site.sessionId` is `Date.now().toString()`, the
decimal string of the process-start epoch milliseconds.  For a realistic
start time (here 2025-09-13 UTC in ms) this is a 13-character decimal
string, not a four-hex-digit identifier. -/
theorem sessionId_not_four_hex_counterexample :
    sessionIdOfStart 1757712600000 = "1757712600000"
    ∧ (sessionIdOfStart 1757712600000).length ≠ 4 := by
  constructor
  · rfl
  · decide

/-- `runSequences` from an arbitrary starting counter emits exactly the
strings `sessionId/(k+1)`, `sessionId/(k+2)`, … in order. -/
theorem runSequences_spec (sessionId : String) :
    ∀ (inputs : List EnergyTotals) (ledger : Option EnergySnapshot) (k : ℕ),
      ∃ m, runSequences sessionId k ledger inputs
          = (k + m, (List.range m).map (fun i => mkSequence sessionId (k + i + 1))) := by
  intro inputs
  induction inputs with
  | nil =>
    intro ledger k
    exact ⟨0, by simp [runSequences]⟩
  | cons t ts ih =>
    intro ledger k
    rcases hgen : generateFroniusMinutely t ledger with ⟨l1, dopt⟩
    cases dopt with
    | none =>
      obtain ⟨m, hm⟩ := ih l1 k
      exact ⟨m, by simp [runSequences, hgen, hm]⟩
    | some d =>
      obtain ⟨m, hm⟩ := ih l1 (k + 1)
      refine ⟨m + 1, ?_⟩
      have hmap : (List.range (m + 1)).map (fun i => mkSequence sessionId (k + i + 1))
          = mkSequence sessionId (k + 1)
            :: (List.range m).map (fun i => mkSequence sessionId (k + 1 + i + 1)) := by
        rw [List.range_succ_eq_map, List.map_cons, List.map_map]
        refine congrArg₂ _ (by simp) ?_
        refine List.map_congr_left ?_
        intro i _
        simp only [Function.comp_apply]
        congr 1
        omega
      simp [runSequences, hgen, hm, hmap]
      omega

/-- C5 amended: within one process every emitted `froniusMinutely`
`sequence` field is `S ++ "/" ++ N` where `S` is the decimal
`Date.now().toString()` session identifier fixed at process start (NOT a
four-hex-digit string for realistic start times), identical for all
records, and the `N` of successive non-null reports are exactly
1, 2, 3, … in order. -/
theorem sequence_session_and_counter (startMs : ℕ)
    (ledger : Option EnergySnapshot) (inputs : List EnergyTotals) :
    ∃ m, runSequences (sessionIdOfStart startMs) 0 ledger inputs
        = (m, (List.range m).map
            (fun i => sessionIdOfStart startMs ++ "/" ++ toString (i + 1))) := by
  obtain ⟨m, hm⟩ := runSequences_spec (sessionIdOfStart startMs) inputs ledger 0
  refine ⟨m, ?_⟩
  rw [hm]
  refine congrArg₂ _ (by omega) ?_
  refine List.map_congr_left ?_
  intro i _
  simp [mkSequence]

/-! ## Claims C4 and C10 — site energy totals -/

/-- One loop iteration of `getEnergyTotals` only ever raises the
`has…` flags, and while a flag stays down the corresponding totals are
untouched. -/
theorem totalsStep_spec (acc : TotalsAcc) (inv : InverterState) :
    ((totalsStep acc inv).hasSolar = false →
      (totalsStep acc inv).solarWh = acc.solarWh ∧ acc.hasSolar = false)
    ∧ (acc.hasSolar = true → (totalsStep acc inv).hasSolar = true)
    ∧ ((totalsStep acc inv).hasBattery = false →
      (totalsStep acc inv).batteryInWh = acc.batteryInWh
      ∧ (totalsStep acc inv).batteryOutWh = acc.batteryOutWh
      ∧ acc.hasBattery = false)
    ∧ (acc.hasBattery = true → (totalsStep acc inv).hasBattery = true)
    ∧ ((totalsStep acc inv).hasGrid = false →
      (totalsStep acc inv).gridInWh = acc.gridInWh
      ∧ (totalsStep acc inv).gridOutWh = acc.gridOutWh
      ∧ acc.hasGrid = false)
    ∧ (acc.hasGrid = true → (totalsStep acc inv).hasGrid = true) := by
  unfold totalsStep
  by_cases h1 : 0 < (Inverter.getEnergyData inv).solarWh <;>
  by_cases h2 : 0 < (Inverter.getEnergyData inv).batteryInWh
      ∨ 0 < (Inverter.getEnergyData inv).batteryOutWh <;>
  by_cases h3 : inv.isMaster
      ∧ (0 < (Inverter.getEnergyData inv).gridInWh
        ∨ 0 < (Inverter.getEnergyData inv).gridOutWh) <;>
    simp [h1, h2, h3]

/-- The loop of `getEnergyTotals` keeps each total at its initial value
as long as its flag never goes up, and never lowers a flag. -/
theorem foldl_totals_inv (invs : List InverterState) :
    ∀ acc : TotalsAcc,
      ((invs.foldl totalsStep acc).hasSolar = false →
        (invs.foldl totalsStep acc).solarWh = acc.solarWh ∧ acc.hasSolar = false)
      ∧ (acc.hasSolar = true → (invs.foldl totalsStep acc).hasSolar = true)
      ∧ ((invs.foldl totalsStep acc).hasBattery = false →
        (invs.foldl totalsStep acc).batteryInWh = acc.batteryInWh
        ∧ (invs.foldl totalsStep acc).batteryOutWh = acc.batteryOutWh
        ∧ acc.hasBattery = false)
      ∧ (acc.hasBattery = true → (invs.foldl totalsStep acc).hasBattery = true)
      ∧ ((invs.foldl totalsStep acc).hasGrid = false →
        (invs.foldl totalsStep acc).gridInWh = acc.gridInWh
        ∧ (invs.foldl totalsStep acc).gridOutWh = acc.gridOutWh
        ∧ acc.hasGrid = false)
      ∧ (acc.hasGrid = true → (invs.foldl totalsStep acc).hasGrid = true) := by
  induction invs with
  | nil => intro acc; simp
  | cons i is ih =>
    intro acc
    have hstep := totalsStep_spec acc i
    have hrec := ih (totalsStep acc i)
    simp only [List.foldl_cons]
    refine ⟨?_, ?_, ?_, ?_, ?_, ?_⟩
    · intro h
      obtain ⟨hv, hf⟩ := hrec.1 h
      obtain ⟨hv2, hf2⟩ := hstep.1 hf
      exact ⟨hv.trans hv2, hf2⟩
    · intro h
      exact hrec.2.1 (hstep.2.1 h)
    · intro h
      obtain ⟨hv, hw, hf⟩ := hrec.2.2.1 h
      obtain ⟨hv2, hw2, hf2⟩ := hstep.2.2.1 hf
      exact ⟨hv.trans hv2, hw.trans hw2, hf2⟩
    · intro h
      exact hrec.2.2.2.1 (hstep.2.2.2.1 h)
    · intro h
      obtain ⟨hv, hw, hf⟩ := hrec.2.2.2.2.1 h
      obtain ⟨hv2, hw2, hf2⟩ := hstep.2.2.2.2.1 hf
      exact ⟨hv.trans hv2, hw.trans hw2, hf2⟩
    · intro h
      exact hrec.2.2.2.2.2 (hstep.2.2.2.2.2 h)

/-- C4: site load energy is the energy-balance value.  `loadWh` is null
exactly when none of solar, battery or grid contributed, and whenever it
is present it equals
`max(0, solarWh + gridInWh + batteryOutWh − gridOutWh − batteryInWh)`
over the reported quantities with absent terms counted as zero. -/
theorem getEnergyTotals_load_energy_balance (inverters : List InverterState) :
    ((Site.getEnergyTotals inverters).loadWh = none ↔
      ((Site.getEnergyTotals inverters).solarWh = none
        ∧ (Site.getEnergyTotals inverters).batteryInWh = none
        ∧ (Site.getEnergyTotals inverters).gridInWh = none))
    ∧ ∀ l, (Site.getEnergyTotals inverters).loadWh = some l →
        l = max 0 ((Site.getEnergyTotals inverters).solarWh.getD 0
          + (Site.getEnergyTotals inverters).gridInWh.getD 0
          + (Site.getEnergyTotals inverters).batteryOutWh.getD 0
          - (Site.getEnergyTotals inverters).gridOutWh.getD 0
          - (Site.getEnergyTotals inverters).batteryInWh.getD 0) := by
  cases inverters with
  | nil =>
    constructor
    · simp [Site.getEnergyTotals]
    · intro l hl
      simp [Site.getEnergyTotals] at hl
  | cons i is =>
    have hinv := foldl_totals_inv (i :: is) ⟨0, 0, 0, 0, 0, false, false, false⟩
    have hget : Site.getEnergyTotals (i :: is) =
        { solarWh :=
            if ((i :: is).foldl totalsStep ⟨0, 0, 0, 0, 0, false, false, false⟩).hasSolar then
              some ((i :: is).foldl totalsStep ⟨0, 0, 0, 0, 0, false, false, false⟩).solarWh
            else none
          batteryInWh :=
            if ((i :: is).foldl totalsStep ⟨0, 0, 0, 0, 0, false, false, false⟩).hasBattery then
              some ((i :: is).foldl totalsStep ⟨0, 0, 0, 0, 0, false, false, false⟩).batteryInWh
            else none
          batteryOutWh :=
            if ((i :: is).foldl totalsStep ⟨0, 0, 0, 0, 0, false, false, false⟩).hasBattery then
              some ((i :: is).foldl totalsStep ⟨0, 0, 0, 0, 0, false, false, false⟩).batteryOutWh
            else none
          gridInWh :=
            if ((i :: is).foldl totalsStep ⟨0, 0, 0, 0, 0, false, false, false⟩).hasGrid then
              some ((i :: is).foldl totalsStep ⟨0, 0, 0, 0, 0, false, false, false⟩).gridInWh
            else none
          gridOutWh :=
            if ((i :: is).foldl totalsStep ⟨0, 0, 0, 0, 0, false, false, false⟩).hasGrid then
              some ((i :: is).foldl totalsStep ⟨0, 0, 0, 0, 0, false, false, false⟩).gridOutWh
            else none
          loadWh :=
            if ((i :: is).foldl totalsStep ⟨0, 0, 0, 0, 0, false, false, false⟩).hasSolar
                ∨ ((i :: is).foldl totalsStep ⟨0, 0, 0, 0, 0, false, false, false⟩).hasGrid
                ∨ ((i :: is).foldl totalsStep ⟨0, 0, 0, 0, 0, false, false, false⟩).hasBattery then
              some (max 0
                (((i :: is).foldl totalsStep ⟨0, 0, 0, 0, 0, false, false, false⟩).solarWh
                  + ((i :: is).foldl totalsStep ⟨0, 0, 0, 0, 0, false, false, false⟩).gridInWh
                  + ((i :: is).foldl totalsStep ⟨0, 0, 0, 0, 0, false, false, false⟩).batteryOutWh
                  - ((i :: is).foldl totalsStep ⟨0, 0, 0, 0, 0, false, false, false⟩).gridOutWh
                  - ((i :: is).foldl totalsStep ⟨0, 0, 0, 0, 0, false, false, false⟩).batteryInWh))
            else none } := rfl
    rw [hget]
    cases hS : ((i :: is).foldl totalsStep ⟨0, 0, 0, 0, 0, false, false, false⟩).hasSolar <;>
    cases hB : ((i :: is).foldl totalsStep ⟨0, 0, 0, 0, 0, false, false, false⟩).hasBattery <;>
    cases hG : ((i :: is).foldl totalsStep ⟨0, 0, 0, 0, 0, false, false, false⟩).hasGrid
    case false.false.false =>
      simp [-List.foldl_cons]
    case false.false.true =>
      have hzS := (hinv.1 hS).1
      have hzB := hinv.2.2.1 hB
      constructor
      · simp [-List.foldl_cons]
      · intro l hl
        simp [-List.foldl_cons] at hl ⊢
        subst hl
        simp [hzS, hzB.1, hzB.2.1, -List.foldl_cons]
    case false.true.false =>
      have hzS := (hinv.1 hS).1
      have hzG := hinv.2.2.2.2.1 hG
      constructor
      · simp [-List.foldl_cons]
      · intro l hl
        simp [-List.foldl_cons] at hl ⊢
        subst hl
        simp [hzS, hzG.1, hzG.2.1, -List.foldl_cons]
    case false.true.true =>
      have hzS := (hinv.1 hS).1
      constructor
      · simp [-List.foldl_cons]
      · intro l hl
        simp [-List.foldl_cons] at hl ⊢
        subst hl
        simp [hzS, -List.foldl_cons]
    case true.false.false =>
      have hzB := hinv.2.2.1 hB
      have hzG := hinv.2.2.2.2.1 hG
      constructor
      · simp [-List.foldl_cons]
      · intro l hl
        simp [-List.foldl_cons] at hl ⊢
        subst hl
        simp [hzB.1, hzB.2.1, hzG.1, hzG.2.1, -List.foldl_cons]
    case true.false.true =>
      have hzB := hinv.2.2.1 hB
      constructor
      · simp [-List.foldl_cons]
      · intro l hl
        simp [-List.foldl_cons] at hl ⊢
        subst hl
        simp [hzB.1, hzB.2.1, -List.foldl_cons]
    case true.true.false =>
      have hzG := hinv.2.2.2.2.1 hG
      constructor
      · simp [-List.foldl_cons]
      · intro l hl
        simp [-List.foldl_cons] at hl ⊢
        subst hl
        simp [hzG.1, hzG.2.1, -List.foldl_cons]
    case true.true.true =>
      constructor
      · simp [-List.foldl_cons]
      · intro l hl
        simp [-List.foldl_cons] at hl ⊢
        subst hl
        simp [-List.foldl_cons]

/-- Witness for C4: one master inverter with 30 Wh of integrated solar
and nothing else gives `loadWh = 30 = max 0 (30 + 0 + 0 − 0 − 0)`. -/
theorem getEnergyTotals_load_energy_balance_witness :
    (30 : ℚ) = max 0
      ((Site.getEnergyTotals [{ Inverter.mk "10.0.0.9" "W1" true none false with
          solarIntegrator := ⟨30, some 0, some 0⟩ }]).solarWh.getD 0
        + (Site.getEnergyTotals [{ Inverter.mk "10.0.0.9" "W1" true none false with
          solarIntegrator := ⟨30, some 0, some 0⟩ }]).gridInWh.getD 0
        + (Site.getEnergyTotals [{ Inverter.mk "10.0.0.9" "W1" true none false with
          solarIntegrator := ⟨30, some 0, some 0⟩ }]).batteryOutWh.getD 0
        - (Site.getEnergyTotals [{ Inverter.mk "10.0.0.9" "W1" true none false with
          solarIntegrator := ⟨30, some 0, some 0⟩ }]).gridOutWh.getD 0
        - (Site.getEnergyTotals [{ Inverter.mk "10.0.0.9" "W1" true none false with
          solarIntegrator := ⟨30, some 0, some 0⟩ }]).batteryInWh.getD 0) :=
  (getEnergyTotals_load_energy_balance
      [{ Inverter.mk "10.0.0.9" "W1" true none false with
          solarIntegrator := ⟨30, some 0, some 0⟩ }]).2 30
    (by norm_num [Site.getEnergyTotals, totalsStep, Inverter.getEnergyData,
      Inverter.mk, EnergyIntegrator.getTotalKwh,
      BidirectionalEnergyIntegrator.getPositiveKwh,
      BidirectionalEnergyIntegrator.getNegativeKwh,
      BidirectionalEnergyIntegrator.new, EnergyIntegrator.new])

/-- When every accumulator of an inverter reads zero, the
`getEnergyTotals` loop body leaves the accumulator record unchanged. -/
theorem totalsStep_zero (acc : TotalsAcc) (inv : InverterState)
    (h : Inverter.getEnergyData inv = ⟨0, 0, 0, 0, 0⟩) :
    totalsStep acc inv = acc := by
  simp [totalsStep, h]

/-- C10: while every inverter's accumulators are exactly 0 Wh, all six
`getEnergyTotals` quantities are null even though inverters are present
and polling, and consequently `generateFroniusMinutely` hits its no-data
gate and produces no minutely report (the ledger is also untouched). -/
theorem zero_accumulators_give_null_totals (inverters : List InverterState)
    (h1 : inverters ≠ [])
    (h2 : ∀ inv ∈ inverters, Inverter.getEnergyData inv = ⟨0, 0, 0, 0, 0⟩) :
    Site.getEnergyTotals inverters
      = { solarWh := none, batteryInWh := none, batteryOutWh := none,
          gridInWh := none, gridOutWh := none, loadWh := none }
    ∧ ∀ ledger, generateFroniusMinutely (Site.getEnergyTotals inverters) ledger
        = (ledger, none) := by
  have hfold : ∀ (l : List InverterState) (acc : TotalsAcc),
      (∀ inv ∈ l, Inverter.getEnergyData inv = ⟨0, 0, 0, 0, 0⟩) →
      l.foldl totalsStep acc = acc := by
    intro l
    induction l with
    | nil => intro acc _; rfl
    | cons i is ih =>
      intro acc hz
      rw [List.foldl_cons, totalsStep_zero acc i (hz i (by simp))]
      exact ih acc (fun inv hinv => hz inv (by simp [hinv]))
  have hmain : Site.getEnergyTotals inverters
      = { solarWh := none, batteryInWh := none, batteryOutWh := none,
          gridInWh := none, gridOutWh := none, loadWh := none } := by
    cases inverters with
    | nil => exact absurd rfl h1
    | cons i is =>
      have hz := hfold (i :: is) ⟨0, 0, 0, 0, 0, false, false, false⟩ h2
      simp [Site.getEnergyTotals, hz, -List.foldl_cons]
  refine ⟨hmain, ?_⟩
  intro ledger
  rw [hmain]
  simp [generateFroniusMinutely]

/-- Witness for C10: one master inverter with all-fresh integrators. -/
theorem zero_accumulators_give_null_totals_witness :
    Site.getEnergyTotals [Inverter.mk "192.168.1.60" "Z1" true none false]
      = { solarWh := none, batteryInWh := none, batteryOutWh := none,
          gridInWh := none, gridOutWh := none, loadWh := none }
    ∧ generateFroniusMinutely
        (Site.getEnergyTotals [Inverter.mk "192.168.1.60" "Z1" true none false]) none
      = (none, none) := by
  have h := zero_accumulators_give_null_totals
    [Inverter.mk "192.168.1.60" "Z1" true none false] (by simp)
    (by
      intro inv hinv
      simp only [List.mem_singleton] at hinv
      subst hinv
      norm_num [Inverter.getEnergyData, Inverter.mk, EnergyIntegrator.getTotalKwh,
        BidirectionalEnergyIntegrator.getPositiveKwh,
        BidirectionalEnergyIntegrator.getNegativeKwh,
        BidirectionalEnergyIntegrator.new, EnergyIntegrator.new])
  exact ⟨h.1, h.2 none⟩

/-! ## Claim C6 — bidirectional integrator invariants -/

/-- Invariant of a sub-integrator relative to the samples still to come:
any stored previous power is non-negative and any stored previous
timestamp is at most every upcoming timestamp. -/
def IntegOk (e : EnergyIntegrator) (rest : List (Option ℚ × ℚ)) : Prop :=
  (∀ p0, e.lastPower = some p0 → 0 ≤ p0)
  ∧ (∀ t0, e.lastUpdateTime = some t0 → ∀ x ∈ rest, t0 ≤ x.2)

/-- Invariant for both sub-integrators of a bidirectional integrator. -/
def BidiOk (b : BidirectionalEnergyIntegrator) (rest : List (Option ℚ × ℚ)) : Prop :=
  IntegOk b.positiveIntegrator rest ∧ IntegOk b.negativeIntegrator rest

/-- Feeding a non-negative power at a timestamp no earlier than the
stored one can only grow the accumulator, and re-establishes the
invariant for the remaining samples. -/
theorem updatePower_nonneg_step (e : EnergyIntegrator) (pw t : ℚ)
    (rest : List (Option ℚ × ℚ))
    (hpw : 0 ≤ pw)
    (hlast : ∀ p0, e.lastPower = some p0 → 0 ≤ p0)
    (htime : ∀ t0, e.lastUpdateTime = some t0 → t0 ≤ t)
    (hrest : ∀ x ∈ rest, t ≤ x.2) :
    e.totalIntegrated ≤ (e.updatePower (some pw) t).totalIntegrated
    ∧ IntegOk (e.updatePower (some pw) t) rest := by
  cases hu : e.lastUpdateTime with
  | none =>
    refine ⟨?_, ?_, ?_⟩
    · simp [EnergyIntegrator.updatePower, hu]
    · intro p0 hp0
      simp [EnergyIntegrator.updatePower, hu] at hp0
      rw [← hp0]
      exact hpw
    · intro t0 ht0 x hx
      simp [EnergyIntegrator.updatePower, hu] at ht0
      rw [← ht0]
      exact hrest x hx
  | some t0 =>
    cases hp : e.lastPower with
    | none =>
      refine ⟨?_, ?_, ?_⟩
      · simp [EnergyIntegrator.updatePower, hu, hp]
      · intro p0 hp0
        simp [EnergyIntegrator.updatePower, hu, hp] at hp0
        rw [← hp0]
        exact hpw
      · intro t1 ht1 x hx
        simp [EnergyIntegrator.updatePower, hu, hp] at ht1
        rw [← ht1]
        exact hrest x hx
    | some p0 =>
      have h0 : 0 ≤ p0 := hlast p0 hp
      have ht0 : t0 ≤ t := htime t0 hu
      refine ⟨?_, ?_, ?_⟩
      · have hterm : 0 ≤ ((pw + p0) / 2) * ((t - t0) / 3600000) := by
          apply mul_nonneg
          · linarith
          · have : (0 : ℚ) ≤ t - t0 := by linarith
            positivity
        simp [EnergyIntegrator.updatePower, hu, hp]
        linarith
      · intro p1 hp1
        simp [EnergyIntegrator.updatePower, hu, hp] at hp1
        rw [← hp1]
        exact hpw
      · intro t1 ht1 x hx
        simp [EnergyIntegrator.updatePower, hu, hp] at ht1
        rw [← ht1]
        exact hrest x hx

/-- One bidirectional update: both sub-accumulators can only grow and the
invariant carries over to the remaining samples. -/
theorem bidi_step (b : BidirectionalEnergyIntegrator) (p : Option ℚ) (t : ℚ)
    (rest : List (Option ℚ × ℚ))
    (hok : BidiOk b ((p, t) :: rest))
    (hrest : ∀ x ∈ rest, t ≤ x.2) :
    BidiOk (b.updatePower p t) rest
    ∧ b.positiveIntegrator.totalIntegrated
        ≤ (b.updatePower p t).positiveIntegrator.totalIntegrated
    ∧ b.negativeIntegrator.totalIntegrated
        ≤ (b.updatePower p t).negativeIntegrator.totalIntegrated := by
  obtain ⟨⟨hplast, hptime⟩, ⟨hnlast, hntime⟩⟩ := hok
  have hptime' : ∀ t0, b.positiveIntegrator.lastUpdateTime = some t0 → t0 ≤ t :=
    fun t0 h => hptime t0 h ((p, t)) (by simp)
  have hntime' : ∀ t0, b.negativeIntegrator.lastUpdateTime = some t0 → t0 ≤ t :=
    fun t0 h => hntime t0 h ((p, t)) (by simp)
  cases p with
  | none =>
    refine ⟨⟨⟨hplast, ?_⟩, ⟨hnlast, ?_⟩⟩, le_refl _, le_refl _⟩
    · intro t0 h x hx
      exact hptime t0 h x (by simp [hx])
    · intro t0 h x hx
      exact hntime t0 h x (by simp [hx])
  | some pw =>
    by_cases hpos : 0 < pw
    · have hP := updatePower_nonneg_step b.positiveIntegrator pw t rest
        (le_of_lt hpos) hplast hptime' hrest
      have hN := updatePower_nonneg_step b.negativeIntegrator 0 t rest
        (le_refl 0) hnlast hntime' hrest
      refine ⟨⟨?_, ?_⟩, ?_, ?_⟩ <;>
        simp only [BidirectionalEnergyIntegrator.updatePower, if_pos hpos]
      · exact hP.2
      · exact hN.2
      · exact hP.1
      · exact hN.1
    · by_cases hneg : pw < 0
      · have hP := updatePower_nonneg_step b.positiveIntegrator 0 t rest
          (le_refl 0) hplast hptime' hrest
        have hN := updatePower_nonneg_step b.negativeIntegrator (-pw) t rest
          (by linarith) hnlast hntime' hrest
        refine ⟨⟨?_, ?_⟩, ?_, ?_⟩ <;>
          simp only [BidirectionalEnergyIntegrator.updatePower, if_neg hpos, if_pos hneg]
        · exact hP.2
        · exact hN.2
        · exact hP.1
        · exact hN.1
      · have hP := updatePower_nonneg_step b.positiveIntegrator 0 t rest
          (le_refl 0) hplast hptime' hrest
        have hN := updatePower_nonneg_step b.negativeIntegrator 0 t rest
          (le_refl 0) hnlast hntime' hrest
        refine ⟨⟨?_, ?_⟩, ?_, ?_⟩ <;>
          simp only [BidirectionalEnergyIntegrator.updatePower, if_neg hpos, if_neg hneg]
        · exact hP.2
        · exact hN.2
        · exact hP.1
        · exact hN.1

/-- Running a chronological sample list from an invariant-satisfying
state keeps the invariant and never decreases either accumulator. -/
theorem bidi_run (l : List (Option ℚ × ℚ)) :
    ∀ (rest : List (Option ℚ × ℚ)) (b : BidirectionalEnergyIntegrator),
      List.Pairwise (fun a c => a.2 ≤ c.2) (l ++ rest) →
      BidiOk b (l ++ rest) →
      BidiOk (l.foldl (fun s x => s.updatePower x.1 x.2) b) rest
      ∧ b.positiveIntegrator.totalIntegrated
          ≤ (l.foldl (fun s x => s.updatePower x.1 x.2) b).positiveIntegrator.totalIntegrated
      ∧ b.negativeIntegrator.totalIntegrated
          ≤ (l.foldl (fun s x => s.updatePower x.1 x.2) b).negativeIntegrator.totalIntegrated := by
  induction l with
  | nil =>
    intro rest b _ hok
    exact ⟨hok, le_refl _, le_refl _⟩
  | cons x l' ih =>
    intro rest b hpair hok
    rw [List.cons_append, List.pairwise_cons] at hpair
    obtain ⟨hhead, htail⟩ := hpair
    have hrest1 : ∀ y ∈ l' ++ rest, x.2 ≤ y.2 := hhead
    have hstep := bidi_step b x.1 x.2 (l' ++ rest) hok hrest1
    have hrec := ih rest (b.updatePower x.1 x.2) htail hstep.1
    refine ⟨hrec.1, ?_, ?_⟩
    · exact le_trans hstep.2.1 hrec.2.1
    · exact le_trans hstep.2.2 hrec.2.2

/-- C6: over any sample history with non-decreasing timestamps,
`positiveWh` and `negativeWh` are non-negative at every point of the run
and monotone non-decreasing from any prefix to the full history; and
every valid signed sample updates both sub-integrators at the same
timestamp, the opposite-sign one with power 0. -/
theorem bidirectional_accumulators_nonneg_mono
    (samples pre suf : List (Option ℚ × ℚ))
    (hsplit : samples = pre ++ suf)
    (hchron : List.Pairwise (fun a c => a.2 ≤ c.2) samples) :
    (0 ≤ (runBidi pre).getPositiveWh ∧ 0 ≤ (runBidi pre).getNegativeWh)
    ∧ ((runBidi pre).getPositiveWh ≤ (runBidi samples).getPositiveWh
      ∧ (runBidi pre).getNegativeWh ≤ (runBidi samples).getNegativeWh)
    ∧ (∀ (b : BidirectionalEnergyIntegrator) (pw t : ℚ),
        (0 < pw → b.updatePower (some pw) t
          = ⟨b.positiveIntegrator.updatePower (some pw) t,
             b.negativeIntegrator.updatePower (some 0) t⟩)
        ∧ (pw < 0 → b.updatePower (some pw) t
          = ⟨b.positiveIntegrator.updatePower (some 0) t,
             b.negativeIntegrator.updatePower (some (-pw)) t⟩)
        ∧ (pw = 0 → b.updatePower (some pw) t
          = ⟨b.positiveIntegrator.updatePower (some 0) t,
             b.negativeIntegrator.updatePower (some 0) t⟩)) := by
  subst hsplit
  have hOkNew : ∀ rest, BidiOk BidirectionalEnergyIntegrator.new rest := by
    intro rest
    refine ⟨⟨?_, ?_⟩, ⟨?_, ?_⟩⟩ <;> intro v hv <;> cases hv
  have h1 := bidi_run pre suf BidirectionalEnergyIntegrator.new hchron (hOkNew _)
  have hpairsuf : List.Pairwise (fun a c : Option ℚ × ℚ => a.2 ≤ c.2) (suf ++ []) := by
    rw [List.append_nil]
    exact (List.pairwise_append.mp hchron).2.1
  have hoksuf : BidiOk (runBidi pre) (suf ++ []) := by
    rw [List.append_nil]
    exact h1.1
  have h2 := bidi_run suf [] (runBidi pre) hpairsuf hoksuf
  have hfull : runBidi (pre ++ suf)
      = suf.foldl (fun s x => s.updatePower x.1 x.2) (runBidi pre) := by
    rw [runBidi, runBidi, List.foldl_append]
  refine ⟨⟨?_, ?_⟩, ⟨?_, ?_⟩, ?_⟩
  · simpa [runBidi, BidirectionalEnergyIntegrator.new, EnergyIntegrator.new,
      BidirectionalEnergyIntegrator.getPositiveWh, EnergyIntegrator.getTotalWh]
      using h1.2.1
  · simpa [runBidi, BidirectionalEnergyIntegrator.new, EnergyIntegrator.new,
      BidirectionalEnergyIntegrator.getNegativeWh, EnergyIntegrator.getTotalWh]
      using h1.2.2
  · rw [hfull]
    simpa [BidirectionalEnergyIntegrator.getPositiveWh, EnergyIntegrator.getTotalWh]
      using h2.2.1
  · rw [hfull]
    simpa [BidirectionalEnergyIntegrator.getNegativeWh, EnergyIntegrator.getTotalWh]
      using h2.2.2
  · intro b pw t
    refine ⟨?_, ?_, ?_⟩
    · intro h
      simp only [BidirectionalEnergyIntegrator.updatePower, if_pos h]
    · intro h
      have h0 : ¬ 0 < pw := by linarith
      simp only [BidirectionalEnergyIntegrator.updatePower, if_neg h0, if_pos h]
    · intro h
      subst h
      simp [BidirectionalEnergyIntegrator.updatePower]

/-- Witness for C6: a short concrete history with a positive, a negative
and a zero sample around an absent one. -/
theorem bidirectional_accumulators_nonneg_mono_witness :
    (0 ≤ (runBidi [(some 5, 0), (some (-3), 2000)]).getPositiveWh
      ∧ 0 ≤ (runBidi [(some 5, 0), (some (-3), 2000)]).getNegativeWh)
    ∧ ((runBidi [(some 5, 0), (some (-3), 2000)]).getPositiveWh
        ≤ (runBidi [(some 5, 0), (some (-3), 2000), (none, 3000), (some 0, 4000)]).getPositiveWh
      ∧ (runBidi [(some 5, 0), (some (-3), 2000)]).getNegativeWh
        ≤ (runBidi [(some 5, 0), (some (-3), 2000), (none, 3000), (some 0, 4000)]).getNegativeWh)
    ∧ (∀ (b : BidirectionalEnergyIntegrator) (pw t : ℚ),
        (0 < pw → b.updatePower (some pw) t
          = ⟨b.positiveIntegrator.updatePower (some pw) t,
             b.negativeIntegrator.updatePower (some 0) t⟩)
        ∧ (pw < 0 → b.updatePower (some pw) t
          = ⟨b.positiveIntegrator.updatePower (some 0) t,
             b.negativeIntegrator.updatePower (some (-pw)) t⟩)
        ∧ (pw = 0 → b.updatePower (some pw) t
          = ⟨b.positiveIntegrator.updatePower (some 0) t,
             b.negativeIntegrator.updatePower (some 0) t⟩)) :=
  bidirectional_accumulators_nonneg_mono
    [(some 5, 0), (some (-3), 2000), (none, 3000), (some 0, 4000)]
    [(some 5, 0), (some (-3), 2000)] [(none, 3000), (some 0, 4000)]
    rfl
    (by norm_num [List.pairwise_cons])
